import Mathlib

/-!
Shallow embedding of the ABOI backend pricing core
(src/services/currencyService.js and src/services/priceService.js).

JavaScript numbers are modelled as rationals (ideal arithmetic, no binary
floating point); `Number.prototype.toFixed(p)` followed by `parseFloat` is
modelled as exact round-half-up to `p` decimal places.  Strings holding
currency codes are modelled as lists of characters so that trimming and
upper-casing compute in the kernel.  Asynchronous store and network
effects are modelled by explicit environment records supplying the value
each tier or store call would produce; a thrown JavaScript exception is
modelled by `Except.error` or, where the source catches it, by the catch
branch of the embedded definition.
-/

namespace Aboi

/-- Rounding used by the services: `parseFloat(x.toFixed(p))`, i.e. round
half up (toward plus infinity on ties) to `p` decimal places. -/
def roundTo (p : ℕ) (q : ℚ) : ℚ := (⌊q * 10 ^ p + 1 / 2⌋ : ℚ) / 10 ^ p

/-- JavaScript values that reach the numeric conversions in the services:
`null`, `undefined`, an (ideal) finite number, or `NaN`. -/
inductive JsVal where
  | null
  | undef
  | num (q : ℚ)
  | nan
deriving DecidableEq, Repr

/-- JavaScript `Number(v)` restricted to the values above; `none` stands
for a non-finite result (`NaN`). `Number(null) = 0`, `Number(undefined) = NaN`. -/
def toNumber : JsVal → Option ℚ
  | .null => some 0
  | .undef => none
  | .num q => some q
  | .nan => none

/-! ## currencyService.js -/

/-- Currency codes, modelled as character lists (JavaScript strings). -/
abbrev Code := List Char

/-- JavaScript `String.prototype.trim`: drop leading and trailing
whitespace. -/
def jsTrim (s : Code) : Code :=
  ((s.dropWhile Char.isWhitespace).reverse.dropWhile Char.isWhitespace).reverse

/-- Source `normaliseCurrencyCode`: trim whitespace, uppercase. -/
def normaliseCurrencyCode (code : Code) : Code :=
  (jsTrim code).map Char.toUpper

/-- Configuration fields of `CurrencyService` used by the fallback tier.
The constructor normalises `fallbackBaseFrom`/`fallbackBaseTo` and reads
`fallbackRate` and the inverse precision from the environment (defaults
0.054, ZAR, USD, 6). -/
structure CurrencyConfig where
  fallbackRate : ℚ
  fallbackBaseFrom : Code
  fallbackBaseTo : Code
  fallbackInversePrecision : ℕ
deriving DecidableEq, Repr

/-- Default configuration from the source constructor. -/
def defaultConfig : CurrencyConfig :=
  { fallbackRate := 27 / 500
    fallbackBaseFrom := ['Z', 'A', 'R']
    fallbackBaseTo := ['U', 'S', 'D']
    fallbackInversePrecision := 6 }

/-- Source `resolveFallbackRate`.  The guard `!this.fallbackRate ||
!Number.isFinite(this.fallbackRate)` collapses, for an ideal number, to
`fallbackRate = 0`; the precision guard always passes for a natural
number precision. -/
def resolveFallbackRate (cfg : CurrencyConfig) (fromCurrency toCurrency : Code) :
    Option ℚ :=
  if cfg.fallbackRate = 0 then none
  else
    let f := normaliseCurrencyCode fromCurrency
    let t := normaliseCurrencyCode toCurrency
    if f = [] ∨ t = [] then none
    else if f = t then some 1
    else if f = cfg.fallbackBaseFrom ∧ t = cfg.fallbackBaseTo then
      some cfg.fallbackRate
    else if f = cfg.fallbackBaseTo ∧ t = cfg.fallbackBaseFrom then
      some (roundTo cfg.fallbackInversePrecision (1 / cfg.fallbackRate))
    else none

/-- Environment seen by one call of `getCurrencyRate`:
`cachedFresh` is the value `getCachedExchangeRate` resolves to (it catches
internally, so `none` covers errors, absence, and rows at least 4 hours
old); `apiRate` is the value `fetchExchangeRateFromAPI` resolves to (again
`none` covers every failure, including a missing key in the response);
`staleRate` is the newest persisted row regardless of age (`none` when the
query errors or returns no rows); `staleThrows` models the stale-tier
awaited call itself throwing, which diverts to the outer catch. -/
structure RateEnv where
  cachedFresh : Option ℚ
  apiRate : Option ℚ
  staleRate : Option ℚ
  staleThrows : Bool
deriving DecidableEq, Repr

/-- Environment in which every tier before the static fallback yields
nothing (API unreachable, no persisted rows). -/
def emptyEnv : RateEnv := ⟨none, none, none, false⟩

/-- JavaScript truthiness test applied to a nullable number
(`if (cachedRate)` / `if (apiRate)`): `0`, `NaN` and `null` are falsy. -/
def jsTruthy (o : Option ℚ) : Option ℚ :=
  match o with
  | some r => if r = 0 then none else some r
  | none => none

/-- Body of the `try` block of source `getCurrencyRate`, on already
normalised codes; `none` means the body threw (invalid codes, a stale-tier
exception, or a falsy or non-finite fallback value). -/
def getCurrencyRateTry (cfg : CurrencyConfig) (env : RateEnv) (fromN toN : Code) :
    Option ℚ :=
  if fromN = [] ∨ toN = [] then none
  else if fromN = toN then some 1
  else
    (jsTruthy env.cachedFresh).orElse fun _ =>
      (jsTruthy env.apiRate).orElse fun _ =>
        if env.staleThrows then none
        else
          env.staleRate.orElse fun _ =>
            let fb := (resolveFallbackRate cfg fromN toN).getD cfg.fallbackRate
            if fb = 0 then none else some fb

/-- Source `getCurrencyRate`.  The outer catch returns
`resolveFallbackRate(fromCurrency, toCurrency) ?? fallbackRate`, so the
embedded function is total: the source contract that `getRate` never
throws is reflected by the return type being a plain rational. -/
def getCurrencyRate (cfg : CurrencyConfig) (env : RateEnv)
    (fromCurrency toCurrency : Code) : ℚ :=
  let fromN := normaliseCurrencyCode fromCurrency
  let toN := normaliseCurrencyCode toCurrency
  match getCurrencyRateTry cfg env fromN toN with
  | some r => r
  | none => (resolveFallbackRate cfg fromCurrency toCurrency).getD cfg.fallbackRate

/-- Well-formed environment: every rate a tier can yield is positive
(the data-model invariant `rate > 0` on persisted rows, and a sane
provider response). -/
def RateEnv.Wf (env : RateEnv) : Prop :=
  (∀ r, env.cachedFresh = some r → 0 < r) ∧
  (∀ r, env.apiRate = some r → 0 < r) ∧
  (∀ r, env.staleRate = some r → 0 < r)

end Aboi

namespace Aboi

/-! ## priceService.js -/

/-- Source `generateRandomPrice`: `parseFloat((minPrice + range * randomFactor).toFixed(4))`,
with `randomFactor` a sample of `Math.random()`, made explicit here. -/
def generateRandomPrice (minPrice maxPrice randomFactor : ℚ) : ℚ :=
  roundTo 4 (minPrice + (maxPrice - minPrice) * randomFactor)

/-- Source `calculateChangePercentage`: converts both arguments with
`Number`, returns 0 unless the previous price is finite positive and the
new price finite, else rounds the relative change to 2 decimals. -/
def calculateChangePercentage (previousPrice newPrice : JsVal) : ℚ :=
  match toNumber previousPrice, toNumber newPrice with
  | some prev, some next => if prev ≤ 0 then 0 else roundTo 2 ((next - prev) / prev * 100)
  | _, _ => 0

/-- Row upserted into `current_prices` (fields the core writes; timestamps
elided). -/
structure CurrentPriceRow where
  commodity_id : ℕ
  price_zar : ℚ
  price_usd : ℚ
  exchange_rate : ℚ
  change_24h_percent : ℚ
deriving DecidableEq, Repr

/-- Row inserted into `price_history` (recorded date elided). -/
structure PriceHistoryRow where
  commodity_id : ℕ
  price_zar : ℚ
  price_usd : ℚ
  exchange_rate : ℚ
deriving DecidableEq, Repr

/-- Row inserted into `price_update_runs` (timestamps, operator and notes
elided). -/
structure PriceUpdateRunRow where
  trigger_source : String
  total_commodities : ℕ
  updated_commodities : ℕ
  status : String
deriving DecidableEq, Repr

/-- Source expression `currentRecord?.price_zar ? Number(currentRecord.price_zar) : null`:
the previous price as seen by `calculateChangePercentage` (record missing
or falsy price gives JavaScript `null`). -/
def jsPrevVal (o : Option ℚ) : JsVal :=
  match o with
  | some p => if p = 0 then JsVal.null else JsVal.num p
  | none => JsVal.null

/-- One `price_ranges` row as selected by `updateDailyPrices`, with the
owning commodity joined in.  Numeric fields hold the result of the source
helper `parseNumber` (`none` for null, undefined, or a non-finite value). -/
structure RangeRow where
  commodityId : ℕ
  symbol : Option String
  minPriceZar : Option ℚ
  maxPriceZar : Option ℚ
  minPriceUsd : Option ℚ
  maxPriceUsd : Option ℚ
  commodityActive : Bool
deriving DecidableEq, Repr

/-- Incomplete bounds: neither the USD pair nor the ZAR pair is fully
present, the condition under which the source pushes a skip record. -/
def RangeRow.incomplete (r : RangeRow) : Bool :=
  !((r.minPriceUsd.isSome && r.maxPriceUsd.isSome) ||
    (r.minPriceZar.isSome && r.maxPriceZar.isSome))

/-- Per-item environment of the daily fan-out: the `Math.random()` sample,
the current `price_zar` for the commodity (as `getCurrentPriceRecord`
resolves it), and the errors, if any, returned by the two store writes. -/
structure ItemEnv where
  randomFactor : ℚ
  prevPriceZar : Option ℚ
  currentUpsertError : Option String
  historyInsertError : Option String
deriving DecidableEq, Repr

/-- Entry of the `skipped` list built by `updateDailyPrices` (the raw
bound fields it echoes are elided). -/
structure SkipRec where
  commodityId : ℕ
  reason : String
deriving DecidableEq, Repr

/-- Entry of the `failures` list built by the per-item catch
(`code`/`details`/`hint` elided). -/
structure FailureRec where
  commodityId : ℕ
  symbol : Option String
  message : String
deriving DecidableEq, Repr

/-- Terminal state of one item of the fan-out.  A `failed` item carries
the `current_prices` row that was already upserted when only the
`price_history` insert failed. -/
inductive ItemOutcome where
  | updated (cp : CurrentPriceRow) (ph : PriceHistoryRow)
  | skippedItem (s : SkipRec)
  | failed (f : FailureRec) (written : Option CurrentPriceRow)
deriving DecidableEq, Repr

/-- Whether an item ended in the updated state (`updatedCount += 1`). -/
def ItemOutcome.isUpdated : ItemOutcome → Bool
  | .updated _ _ => true
  | _ => false

/-- Skip record of an outcome, if it is a skip. -/
def skipOf : ItemOutcome → Option SkipRec
  | .skippedItem s => some s
  | _ => none

/-- Failure record of an outcome, if it is a failure. -/
def failOf : ItemOutcome → Option FailureRec
  | .failed f _ => some f
  | _ => none

/-- Row an outcome contributed to `current_prices`, if any (an updated
item always did; a failed item did when only the history insert failed). -/
def currentOf : ItemOutcome → Option CurrentPriceRow
  | .updated cp _ => some cp
  | .failed _ w => w
  | .skippedItem _ => none

/-- Row an outcome contributed to `price_history`, if any. -/
def historyOf : ItemOutcome → Option PriceHistoryRow
  | .updated _ ph => some ph
  | _ => none

/-- Body of the per-range async closure of `updateDailyPrices`: resolve a
USD bound pair (USD pair preferred, else derived from the ZAR pair via the
cycle rate, else skip), generate the price, derive the ZAR counterpart,
compute the 24h change against the previous price, then perform the two
store writes, catching any error into a failure record. -/
def processRange (zarToUsdRate usdToZarRate : ℚ) (r : RangeRow) (e : ItemEnv) :
    ItemOutcome :=
  let bounds : Option (ℚ × ℚ) :=
    match r.minPriceUsd, r.maxPriceUsd with
    | some mu, some xu => some (mu, xu)
    | _, _ =>
      match r.minPriceZar, r.maxPriceZar with
      | some mz, some xz => some (mz * zarToUsdRate, xz * zarToUsdRate)
      | _, _ => none
  match bounds with
  | none => .skippedItem ⟨r.commodityId, "Incomplete price range values"⟩
  | some (minUsd, maxUsd) =>
    let newPriceUsd := generateRandomPrice minUsd maxUsd e.randomFactor
    let newPriceZar := roundTo 4 (newPriceUsd * usdToZarRate)
    let normalizedPriceUsd := roundTo 4 newPriceUsd
    let change24hValue :=
      calculateChangePercentage (jsPrevVal e.prevPriceZar) (JsVal.num newPriceZar)
    let cp : CurrentPriceRow :=
      ⟨r.commodityId, newPriceZar, normalizedPriceUsd, zarToUsdRate, change24hValue⟩
    match e.currentUpsertError with
    | some m => .failed ⟨r.commodityId, r.symbol, m⟩ none
    | none =>
      match e.historyInsertError with
      | some m => .failed ⟨r.commodityId, r.symbol, m⟩ (some cp)
      | none =>
        .updated cp ⟨r.commodityId, newPriceZar, normalizedPriceUsd, zarToUsdRate⟩

/-- Value returned by `updateDailyPrices` on its non-throwing path. -/
structure DailyResult where
  success : Bool
  updated : ℕ
  total : ℕ
  skipped : List SkipRec
  failures : List FailureRec
deriving DecidableEq, Repr

/-- Observable effect of one daily cycle: the rows successfully written to
`current_prices` and `price_history`, the rate row and run row passed to
their inserts (both inserts are attempted once, after the all-settled
barrier; their own store errors are logged and swallowed), and the
returned result. -/
structure DailyOutcome where
  currentWrites : List CurrentPriceRow
  historyWrites : List PriceHistoryRow
  rateLog : ℚ
  runRow : PriceUpdateRunRow
  result : DailyResult
deriving DecidableEq, Repr

/-- Non-throwing core of `updateDailyPrices`, given the resolved
ZAR to USD rate and the selected `price_ranges` rows paired with their
per-item environments. -/
def dailyOutcome (triggerSource : String) (zarToUsdRate : ℚ)
    (rows : List (RangeRow × ItemEnv)) : DailyOutcome :=
  let usdToZarRate := roundTo 6 (1 / zarToUsdRate)
  let activeRanges := rows.filter fun p => p.1.commodityActive
  let outcomes := activeRanges.map fun p => processRange zarToUsdRate usdToZarRate p.1 p.2
  let updatedCount := (outcomes.filter fun o => o.isUpdated).length
  let skipped := outcomes.filterMap skipOf
  let failures := outcomes.filterMap failOf
  let currentWrites := outcomes.filterMap currentOf
  let historyWrites := outcomes.filterMap historyOf
  { currentWrites := currentWrites
    historyWrites := historyWrites
    rateLog := zarToUsdRate
    runRow :=
      { trigger_source := triggerSource
        total_commodities := activeRanges.length
        updated_commodities := updatedCount
        status := if 0 < updatedCount then "success" else "no_updates" }
    result :=
      { success := true
        updated := updatedCount
        total := activeRanges.length
        skipped := skipped
        failures := failures } }

/-- Source `updateDailyPrices`.  The rate is the value
`getCurrencyRate` resolved to for the ZAR to USD pair; the guard `if (!zarToUsdRate)`
throws on a falsy rate, and a failing `price_ranges` select (not modelled:
`rows` is the successful select result) is the only other abort before the
fan-out. -/
def updateDailyPrices (triggerSource : String) (zarToUsdRate : ℚ)
    (rows : List (RangeRow × ItemEnv)) : Except String DailyOutcome :=
  if zarToUsdRate = 0 then .error "Failed to load exchange rate"
  else .ok (dailyOutcome triggerSource zarToUsdRate rows)

end Aboi

namespace Aboi

/-- Store writes performed by the manual update path, in order. -/
inductive WriteOp where
  | currentUpsert (row : CurrentPriceRow)
  | historyInsert (row : PriceHistoryRow)
  | runInsert (row : PriceUpdateRunRow)
deriving DecidableEq, Repr

/-- Environment of one `updateCommodityPrice` call: the current
`price_zar` for the commodity and the errors, if any, produced by the
store writes (`runInsertThrows` models the run insert throwing; its
rejection is swallowed by the inner try/catch). -/
structure ManualEnv where
  prevPriceZar : Option ℚ
  currentUpsertError : Option String
  historyInsertError : Option String
  runInsertThrows : Bool
deriving DecidableEq, Repr

/-- Source `updateCommodityPrice`.  Price inputs are the `parseNumber`
views of `prices.priceUsd` / `prices.priceZar` (`none` for absent or
non-finite).  Returns the successful store writes in order together with
the outcome.  The final `return` statement of the source reads the
undeclared identifier `change24h` (the computed variable is named
`change24hValue`), so after all writes succeed the method still throws a
ReferenceError, rethrown by its outer catch; the embedded definition
reproduces this. -/
def updateCommodityPrice (triggerSource : String) (zarToUsdRate : ℚ)
    (commodityId : ℕ) (priceUsdInput priceZarInput : Option ℚ) (env : ManualEnv) :
    List WriteOp × Except String CurrentPriceRow :=
  if zarToUsdRate = 0 then ([], .error "Failed to load exchange rate")
  else
    let usdToZarRate := roundTo 6 (1 / zarToUsdRate)
    if priceUsdInput = none ∧ priceZarInput = none then
      ([], .error "A price must be provided in USD or ZAR")
    else
      -- the two derivation branches of the source; the `getD 0` defaults
      -- are unreachable because the both-absent case was rejected above
      let priceUsd : ℚ :=
        match priceUsdInput with
        | some u => u
        | none => roundTo 4 (priceZarInput.getD 0 * zarToUsdRate)
      let priceZar : ℚ :=
        match priceZarInput with
        | some z => z
        | none => roundTo 4 (priceUsdInput.getD 0 * usdToZarRate)
      let normalizedUsd := roundTo 4 priceUsd
      let normalizedZar := roundTo 4 priceZar
      let change24hValue :=
        calculateChangePercentage (jsPrevVal env.prevPriceZar) (JsVal.num normalizedZar)
      match env.currentUpsertError with
      | some m => ([], .error m)
      | none =>
        let cp : CurrentPriceRow :=
          ⟨commodityId, normalizedZar, normalizedUsd, zarToUsdRate, change24hValue⟩
        match env.historyInsertError with
        | some m => ([WriteOp.currentUpsert cp], .error m)
        | none =>
          let ph : PriceHistoryRow :=
            ⟨commodityId, normalizedZar, normalizedUsd, zarToUsdRate⟩
          let run : PriceUpdateRunRow := ⟨triggerSource, 1, 1, "success"⟩
          let writes :=
            if env.runInsertThrows then
              [WriteOp.currentUpsert cp, WriteOp.historyInsert ph]
            else
              [WriteOp.currentUpsert cp, WriteOp.historyInsert ph, WriteOp.runInsert run]
          (writes, .error "change24h is not defined")

/-- Inputs of `updatePriceRange` after `parseNumber` (`none` for absent or
non-finite values). -/
structure PriceRangeInput where
  minPriceUsd : Option ℚ
  maxPriceUsd : Option ℚ
  minPriceZar : Option ℚ
  maxPriceZar : Option ℚ
deriving DecidableEq, Repr

/-- Row upserted into `price_ranges` (operator and timestamp elided). -/
structure PriceRangeRow where
  commodity_id : ℕ
  min_price_zar : ℚ
  max_price_zar : ℚ
  min_price_usd : ℚ
  max_price_usd : ℚ
  is_active : Bool
deriving DecidableEq, Repr

/-- Bound resolution of `updatePriceRange`: a complete USD pair derives
the ZAR pair, else a complete ZAR pair derives the USD pair, else the
call is rejected. Result order: (minUsd, maxUsd, minZar, maxZar). -/
def resolveRangeBounds (zarToUsdRate : ℚ) (range : PriceRangeInput) :
    Option (ℚ × ℚ × ℚ × ℚ) :=
  let usdToZarRate := roundTo 6 (1 / zarToUsdRate)
  match range.minPriceUsd, range.maxPriceUsd with
  | some mu, some xu =>
    some (mu, xu, roundTo 4 (mu * usdToZarRate), roundTo 4 (xu * usdToZarRate))
  | _, _ =>
    match range.minPriceZar, range.maxPriceZar with
    | some mz, some xz =>
      some (roundTo 4 (mz * zarToUsdRate), roundTo 4 (xz * zarToUsdRate), mz, xz)
    | _, _ => none

/-- Source `updatePriceRange`: derive the missing pair, validate
`min < max` in both currencies, then upsert (the upsert itself only
happens in the `ok` case; `upsertError` is the store error, if any, of
that final write). -/
def updatePriceRange (zarToUsdRate : ℚ) (commodityId : ℕ)
    (range : PriceRangeInput) (upsertError : Option String) :
    Except String PriceRangeRow :=
  if zarToUsdRate = 0 then .error "Failed to load exchange rate for price range update"
  else
    match resolveRangeBounds zarToUsdRate range with
    | none => .error "Valid price range values were not provided"
    | some (minUsd, maxUsd, minZar, maxZar) =>
      if maxUsd ≤ minUsd ∨ maxZar ≤ minZar then
        .error "Minimum price must be less than maximum price"
      else
        match upsertError with
        | some m => .error m
        | none => .ok ⟨commodityId, minZar, maxZar, minUsd, maxUsd, true⟩

end Aboi

namespace Aboi

/-! ## Rounding lemmas and per-claim theorems -/

/-- Monotonicity of the rounding helper. -/
lemma roundTo_mono (p : ℕ) {q r : ℚ} (h : q ≤ r) : roundTo p q ≤ roundTo p r := by
  unfold roundTo
  have hp : (0:ℚ) < 10 ^ p := by positivity
  have hfl : (⌊q * 10 ^ p + 1/2⌋ : ℤ) ≤ ⌊r * 10 ^ p + 1/2⌋ := by
    apply Int.floor_le_floor
    have := mul_le_mul_of_nonneg_right h (le_of_lt hp)
    linarith
  have hq : ((⌊q * 10 ^ p + 1/2⌋ : ℤ) : ℚ) ≤ ((⌊r * 10 ^ p + 1/2⌋ : ℤ) : ℚ) := by
    exact_mod_cast hfl
  exact (div_le_div_iff_of_pos_right hp).mpr hq

-- evaluation helpers for witnesses
lemma roundTo4_ten : roundTo 4 (10:ℚ) = 10 := by
  norm_num [roundTo, Int.floor_eq_iff]

lemma roundTo4_twenty : roundTo 4 (20:ℚ) = 20 := by
  norm_num [roundTo, Int.floor_eq_iff]

/-- C5 (amended): generatePrice returns `min + (max-min) * U` rounded to 4
decimal places; when the configured bounds are themselves 4-decimal values
and `min < max`, the result stays within the closed interval
`[min, max]` for every `U` in `[0, 1)`. -/
theorem generateRandomPrice_bounds (minPrice maxPrice u : ℚ)
    (hminFix : roundTo 4 minPrice = minPrice)
    (hmaxFix : roundTo 4 maxPrice = maxPrice)
    (hlt : minPrice < maxPrice) (hu0 : 0 ≤ u) (hu1 : u < 1) :
    generateRandomPrice minPrice maxPrice u
      = roundTo 4 (minPrice + (maxPrice - minPrice) * u) ∧
    minPrice ≤ generateRandomPrice minPrice maxPrice u ∧
    generateRandomPrice minPrice maxPrice u ≤ maxPrice := by
  refine ⟨rfl, ?_, ?_⟩
  · have h1 : roundTo 4 minPrice ≤ generateRandomPrice minPrice maxPrice u := by
      apply roundTo_mono
      nlinarith
    rw [hminFix] at h1
    exact h1
  · have h2 : generateRandomPrice minPrice maxPrice u ≤ roundTo 4 maxPrice := by
      apply roundTo_mono
      nlinarith
    rw [hmaxFix] at h2
    exact h2

/-- C5 witness: the bounds hold at `generatePrice(10, 20)` with `U = 1/2`. -/
theorem generateRandomPrice_bounds_witness :
    10 ≤ generateRandomPrice 10 20 (1/2) ∧ generateRandomPrice 10 20 (1/2) ≤ 20 :=
  ⟨(generateRandomPrice_bounds 10 20 (1/2) roundTo4_ten roundTo4_twenty
      (by norm_num) (by norm_num) (by norm_num)).2.1,
   (generateRandomPrice_bounds 10 20 (1/2) roundTo4_ten roundTo4_twenty
      (by norm_num) (by norm_num) (by norm_num)).2.2⟩

/-- C5 counterexample: with `U = 999999/1000000 ∈ [0, 1)`, rounding pushes
`generatePrice(10, 20)` to exactly 20, so the strict upper bound `v < max`
of the claim fails. -/
theorem generateRandomPrice_upper_cex :
    0 ≤ (999999:ℚ)/1000000 ∧ (999999:ℚ)/1000000 < 1 ∧
    generateRandomPrice 10 20 (999999/1000000) = 20 ∧
    ¬ generateRandomPrice 10 20 (999999/1000000) < 20 := by
  refine ⟨by norm_num, by norm_num, ?_, ?_⟩
  · norm_num [generateRandomPrice, roundTo, Int.floor_eq_iff]
  · norm_num [generateRandomPrice, roundTo, Int.floor_eq_iff]

/-- C8: calculateChangePercentage returns the relative change rounded to
2 decimals when the previous price converts to a finite positive number
and the new price to a finite number, and 0 whenever the previous price is
absent, non-positive or non-finite or the new price is non-finite; in
particular (100, 110) gives 10, (0, 50) gives 0 and (null, 50) gives 0. -/
theorem calculateChangePercentage_spec :
    (∀ prev next : ℚ, 0 < prev →
      calculateChangePercentage (JsVal.num prev) (JsVal.num next)
        = roundTo 2 ((next - prev) / prev * 100)) ∧
    (∀ p n : JsVal,
      (toNumber p = none ∨ (∃ q, toNumber p = some q ∧ q ≤ 0) ∨ toNumber n = none) →
      calculateChangePercentage p n = 0) ∧
    calculateChangePercentage (JsVal.num 100) (JsVal.num 110) = 10 ∧
    calculateChangePercentage (JsVal.num 0) (JsVal.num 50) = 0 ∧
    calculateChangePercentage JsVal.null (JsVal.num 50) = 0 := by
  refine ⟨?_, ?_, ?_, ?_, ?_⟩
  · intro prev next h
    simp [calculateChangePercentage, toNumber, not_le.mpr h]
  · intro p n h
    rcases h with h | ⟨q, hq, hq0⟩ | h
    · cases p <;> simp_all [calculateChangePercentage, toNumber]
    · cases p <;> simp_all [calculateChangePercentage, toNumber] <;>
        cases n <;> simp_all [calculateChangePercentage, toNumber]
    · cases n <;> cases p <;> simp_all [calculateChangePercentage, toNumber]
  · norm_num [calculateChangePercentage, toNumber, roundTo, Int.floor_eq_iff]
  · norm_num [calculateChangePercentage, toNumber]
  · norm_num [calculateChangePercentage, toNumber]

/-- C8 witness: the general formula applied at (100, 110). -/
theorem calculateChangePercentage_spec_witness :
    calculateChangePercentage (JsVal.num 100) (JsVal.num 110)
      = roundTo 2 ((110 - 100) / 100 * 100) :=
  calculateChangePercentage_spec.1 100 110 (by norm_num)

/-- C9 (amended): whenever both inputs normalise to the same nonempty
code, `getCurrencyRate` returns exactly 1, for every environment and
configuration (so no cache, API, or fallback tier is consulted). -/
theorem getCurrencyRate_identity (cfg : CurrencyConfig) (env : RateEnv)
    (fromCurrency toCurrency : Code)
    (heq : normaliseCurrencyCode fromCurrency = normaliseCurrencyCode toCurrency)
    (hne : normaliseCurrencyCode fromCurrency ≠ []) :
    getCurrencyRate cfg env fromCurrency toCurrency = 1 := by
  unfold getCurrencyRate getCurrencyRateTry
  rw [← heq]
  simp [hne]

/-- C9 witness: codes that normalise equal and nonempty give rate 1. -/
theorem getCurrencyRate_identity_witness :
    getCurrencyRate defaultConfig emptyEnv [' ', 'u', 's', 'd'] ['U', 'S', 'D'] = 1 :=
  getCurrencyRate_identity defaultConfig emptyEnv [' ', 'u', 's', 'd'] ['U', 'S', 'D']
    (by decide) (by decide)

/-- C9 counterexample: the empty string and a blank both normalise to the
same (empty) code, yet `getCurrencyRate` returns the fallback constant
0.054, not 1, and does consult the fallback tier. -/
theorem getCurrencyRate_identity_cex :
    normaliseCurrencyCode [] = normaliseCurrencyCode [' '] ∧
    getCurrencyRate defaultConfig emptyEnv [] [' '] = 27/500 ∧
    getCurrencyRate defaultConfig emptyEnv [] [' '] ≠ 1 := by
  have hval : getCurrencyRate defaultConfig emptyEnv [] [' '] = 27/500 := by
    simp [getCurrencyRate, getCurrencyRateTry, normaliseCurrencyCode, jsTrim,
      resolveFallbackRate, defaultConfig, emptyEnv, jsTruthy]
  refine ⟨by decide, hval, ?_⟩
  rw [hval]
  norm_num

/-- C7: with a nonzero fallback constant and distinct, normalised,
nonempty configured base codes, resolving the inverse pair in an
environment where all earlier tiers yield nothing returns the reciprocal
of the constant rounded to the configured precision. -/
theorem getCurrencyRate_fallback_inverse (cfg : CurrencyConfig) (env : RateEnv)
    (hc : cfg.fallbackRate ≠ 0)
    (hfromNorm : normaliseCurrencyCode cfg.fallbackBaseFrom = cfg.fallbackBaseFrom)
    (htoNorm : normaliseCurrencyCode cfg.fallbackBaseTo = cfg.fallbackBaseTo)
    (hfromNe : cfg.fallbackBaseFrom ≠ [])
    (htoNe : cfg.fallbackBaseTo ≠ [])
    (hdistinct : cfg.fallbackBaseTo ≠ cfg.fallbackBaseFrom)
    (h1 : env.cachedFresh = none) (h2 : env.apiRate = none)
    (h3 : env.staleRate = none) (h4 : env.staleThrows = false) :
    getCurrencyRate cfg env cfg.fallbackBaseTo cfg.fallbackBaseFrom
      = roundTo cfg.fallbackInversePrecision (1 / cfg.fallbackRate) := by
  have hres : resolveFallbackRate cfg cfg.fallbackBaseTo cfg.fallbackBaseFrom
      = some (roundTo cfg.fallbackInversePrecision (1 / cfg.fallbackRate)) := by
    unfold resolveFallbackRate
    simp [hc, hfromNorm, htoNorm, hfromNe, htoNe, hdistinct]
  unfold getCurrencyRate getCurrencyRateTry
  rw [hfromNorm, htoNorm, h1, h2, h3, h4, hres]
  simp [hfromNe, htoNe, hdistinct, jsTruthy]
  split_ifs with h0
  · simp [hres]
  · simp [hres]

/-- C7 witness: the default configuration (constant 0.054, precision 6)
yields exactly 18.518519 for the USD to ZAR pair at the fallback tier. -/
theorem getCurrencyRate_fallback_inverse_witness :
    getCurrencyRate defaultConfig emptyEnv ['U','S','D'] ['Z','A','R']
      = 18518519/1000000 := by
  have h := getCurrencyRate_fallback_inverse defaultConfig emptyEnv
    (by norm_num [defaultConfig]) (by decide) (by decide) (by decide) (by decide)
    (by decide) rfl rfl rfl rfl
  exact h.trans (by norm_num [defaultConfig, roundTo, Int.floor_eq_iff])

/-- C6: whenever the resolved bounds violate `min < max` in either
currency, `updatePriceRange` rejects with the validation error, for every
store behaviour (the upsert is never reached, so the PriceRange row is
unchanged). -/
theorem updatePriceRange_rejects (zarToUsdRate : ℚ) (commodityId : ℕ)
    (range : PriceRangeInput) (upsertError : Option String)
    (minUsd maxUsd minZar maxZar : ℚ)
    (hrate : zarToUsdRate ≠ 0)
    (hres : resolveRangeBounds zarToUsdRate range = some (minUsd, maxUsd, minZar, maxZar))
    (hviol : maxUsd ≤ minUsd ∨ maxZar ≤ minZar) :
    updatePriceRange zarToUsdRate commodityId range upsertError
      = .error "Minimum price must be less than maximum price" := by
  unfold updatePriceRange
  rw [if_neg hrate, hres]
  simp [hviol]

/-- C6 witness: a USD pair with min 5 and max 3 is rejected. -/
theorem updatePriceRange_rejects_witness :
    updatePriceRange (27/500) 7 ⟨some 5, some 3, none, none⟩ none
      = .error "Minimum price must be less than maximum price" :=
  updatePriceRange_rejects (27/500) 7 ⟨some 5, some 3, none, none⟩ none
    5 3 (roundTo 4 (5 * roundTo 6 (1 / (27/500)))) (roundTo 4 (3 * roundTo 6 (1 / (27/500))))
    (by norm_num) rfl (Or.inl (by norm_num))

/-- C3 (bug exhibit): on a well-formed manual update (price supplied in
USD, every store write succeeding), the source still ends in a thrown
ReferenceError, because its `return` statement reads the undeclared
identifier `change24h`; all three rows were already written when the
throw happens. -/
theorem updateCommodityPrice_change24h_bug :
    ((updateCommodityPrice "manual_single" (27/500) 1 (some 100) none
        ⟨none, none, none, false⟩).2
      = .error "change24h is not defined") ∧
    (updateCommodityPrice "manual_single" (27/500) 1 (some 100) none
        ⟨none, none, none, false⟩).1.length = 3 ∧
    WriteOp.runInsert ⟨"manual_single", 1, 1, "success"⟩
      ∈ (updateCommodityPrice "manual_single" (27/500) 1 (some 100) none
        ⟨none, none, none, false⟩).1 := by
  refine ⟨?_, ?_, ?_⟩ <;>
    simp [updateCommodityPrice]

end Aboi

namespace Aboi

/-- Inversion for the JavaScript truthiness helper. -/
lemma jsTruthy_eq_some {o : Option ℚ} {r : ℚ} (h : jsTruthy o = some r) :
    o = some r := by
  cases o with
  | none => simp [jsTruthy] at h
  | some x =>
    by_cases hx : x = 0
    · simp [jsTruthy, hx] at h
    · simp only [jsTruthy, if_neg hx] at h
      simpa using h

/-- Every value the static fallback resolution can produce is positive,
given a positive constant whose rounded reciprocal is also positive. -/
lemma resolveFallbackRate_pos (cfg : CurrencyConfig)
    (hc : 0 < cfg.fallbackRate)
    (hinv : 0 < roundTo cfg.fallbackInversePrecision (1 / cfg.fallbackRate)) :
    ∀ f t r, resolveFallbackRate cfg f t = some r → 0 < r := by
  intro f t r h
  simp only [resolveFallbackRate] at h
  split_ifs at h <;> simp_all
  all_goals linarith

/-- Positivity of the value delivered at the fallback tier. -/
lemma fallbackDelivered_pos (cfg : CurrencyConfig) (f t : Code)
    (hc : 0 < cfg.fallbackRate)
    (hinv : 0 < roundTo cfg.fallbackInversePrecision (1 / cfg.fallbackRate)) :
    0 < (resolveFallbackRate cfg f t).getD cfg.fallbackRate := by
  cases hres : resolveFallbackRate cfg f t with
  | none => simpa using hc
  | some v => simpa using resolveFallbackRate_pos cfg hc hinv f t v hres

/-- Positivity of whatever the try body of `getCurrencyRate` returns. -/
lemma getCurrencyRateTry_pos (cfg : CurrencyConfig) (env : RateEnv)
    (fromN toN : Code)
    (hc : 0 < cfg.fallbackRate)
    (hinv : 0 < roundTo cfg.fallbackInversePrecision (1 / cfg.fallbackRate))
    (henv : env.Wf) :
    ∀ r, getCurrencyRateTry cfg env fromN toN = some r → 0 < r := by
  obtain ⟨hcache, hapi, hstale⟩ := henv
  intro r h
  simp only [getCurrencyRateTry] at h
  by_cases h1 : fromN = [] ∨ toN = []
  · rw [if_pos h1] at h
    simp at h
  · rw [if_neg h1] at h
    by_cases h2 : fromN = toN
    · rw [if_pos h2] at h
      simp only [Option.some.injEq] at h
      subst h
      norm_num
    · rw [if_neg h2] at h
      rw [Option.orElse_eq_some'] at h
      rcases h with hcf | ⟨hcfn, h⟩
      · exact hcache r (jsTruthy_eq_some hcf)
      · rw [Option.orElse_eq_some'] at h
        rcases h with haf | ⟨hafn, h⟩
        · exact hapi r (jsTruthy_eq_some haf)
        · by_cases hthrow : env.staleThrows = true
          · rw [if_pos hthrow] at h
            simp at h
          · rw [if_neg hthrow] at h
            rw [Option.orElse_eq_some'] at h
            rcases h with hsf | ⟨hsfn, h⟩
            · exact hstale r hsf
            · by_cases h0 : (resolveFallbackRate cfg fromN toN).getD cfg.fallbackRate = 0
              · rw [if_pos h0] at h
                simp at h
              · rw [if_neg h0] at h
                simp only [Option.some.injEq] at h
                subst h
                exact fallbackDelivered_pos cfg fromN toN hc hinv

/-- C1: `getCurrencyRate` is total (the embedding returns a plain
rational, mirroring the catch-all of the source) and positive for every
pair of codes and every well-formed environment, given a positive
fallback constant whose rounded reciprocal is also positive (both hold
for the default configuration). -/
theorem getCurrencyRate_pos (cfg : CurrencyConfig) (env : RateEnv)
    (fromCurrency toCurrency : Code)
    (hc : 0 < cfg.fallbackRate)
    (hinv : 0 < roundTo cfg.fallbackInversePrecision (1 / cfg.fallbackRate))
    (henv : env.Wf) : 0 < getCurrencyRate cfg env fromCurrency toCurrency := by
  have htry := getCurrencyRateTry_pos cfg env
    (normaliseCurrencyCode fromCurrency) (normaliseCurrencyCode toCurrency) hc hinv henv
  simp only [getCurrencyRate]
  cases htr : getCurrencyRateTry cfg env
      (normaliseCurrencyCode fromCurrency) (normaliseCurrencyCode toCurrency) with
  | some v => exact htry v htr
  | none => exact fallbackDelivered_pos cfg fromCurrency toCurrency hc hinv

/-- C1 witness: the default configuration in the empty environment (API
unreachable, no persisted rows) still yields a positive rate. -/
theorem getCurrencyRate_pos_witness :
    0 < getCurrencyRate defaultConfig emptyEnv ['Z','A','R'] ['U','S','D'] :=
  getCurrencyRate_pos defaultConfig emptyEnv ['Z','A','R'] ['U','S','D']
    (by norm_num [defaultConfig])
    (by norm_num [defaultConfig, roundTo, Int.floor_eq_iff])
    (by simp [RateEnv.Wf, emptyEnv])

end Aboi

namespace Aboi

/-- The per-item closure skips exactly the rows with incomplete bounds,
and the skip record carries the commodity id and the source reason. -/
lemma skipOf_processRange (a b : ℚ) (r : RangeRow) (e : ItemEnv) :
    skipOf (processRange a b r e)
      = if r.incomplete then some ⟨r.commodityId, "Incomplete price range values"⟩
        else none := by
  rcases r with ⟨id, sym, mz, xz, mu, xu, act⟩
  cases mu <;> cases xu <;> cases mz <;> cases xz <;>
    cases hce : e.currentUpsertError <;> cases hhe : e.historyInsertError <;>
    simp [processRange, RangeRow.incomplete, skipOf, hce, hhe]

/-- Every fan-out item ends in exactly one of the three terminal states. -/
lemma outcome_partition (l : List ItemOutcome) :
    (l.filter ItemOutcome.isUpdated).length
      + (l.filterMap failOf).length + (l.filterMap skipOf).length = l.length := by
  induction l with
  | nil => simp
  | cons o t ih =>
    cases o <;> simp [ItemOutcome.isUpdated, failOf, skipOf, List.filter_cons,
      List.filterMap_cons] <;> omega

/-- Skip count of a processed list equals its incomplete-row count. -/
lemma skipped_count (a b : ℚ) (l : List (RangeRow × ItemEnv)) :
    ((l.map fun p => processRange a b p.1 p.2).filterMap skipOf).length
      = (l.filter fun p => p.1.incomplete).length := by
  induction l with
  | nil => simp
  | cons p t ih =>
    rw [List.filterMap_map] at ih ⊢
    simp only [List.filterMap_cons, List.filter_cons, Function.comp,
      skipOf_processRange]
    by_cases hp : p.1.incomplete <;> simp [hp, ih]

/-- C2 (amended): a run over N active ranges of which K have incomplete
bounds attempts exactly N-K per-commodity updates (every attempted item
ends updated or failed), records exactly K skip entries, and passes one
run row to the insert whose `total_commodities` field is N (the full
active-range count, not N-K). -/
theorem updateDailyPrices_counts (ts : String) (rate : ℚ)
    (rows : List (RangeRow × ItemEnv)) (hrate : rate ≠ 0) :
    updateDailyPrices ts rate rows = .ok (dailyOutcome ts rate rows) ∧
    (dailyOutcome ts rate rows).result.skipped.length
      = ((rows.filter fun p => p.1.commodityActive).filter fun p => p.1.incomplete).length ∧
    (dailyOutcome ts rate rows).result.updated
      + (dailyOutcome ts rate rows).result.failures.length
      + (dailyOutcome ts rate rows).result.skipped.length
      = (rows.filter fun p => p.1.commodityActive).length ∧
    (dailyOutcome ts rate rows).runRow.total_commodities
      = (rows.filter fun p => p.1.commodityActive).length := by
  refine ⟨by simp [updateDailyPrices, hrate], ?_, ?_, ?_⟩
  · simp only [dailyOutcome]
    exact skipped_count rate (roundTo 6 (1 / rate)) (rows.filter fun p => p.1.commodityActive)
  · simp only [dailyOutcome]
    have h := outcome_partition
      ((rows.filter fun p => p.1.commodityActive).map
        fun p => processRange rate (roundTo 6 (1 / rate)) p.1 p.2)
    simpa using h
  · simp [dailyOutcome]

/-- C2 counterexample: one active range with no bounds at all (N = 1,
K = 1) is skipped, yet the run row records `total_commodities = 1`,
not N - K = 0. -/
theorem updateDailyPrices_total_cex :
    (updateDailyPrices "cron" (27/500)
        [(⟨1, none, none, none, none, none, true⟩, ⟨0, none, none, none⟩)]).map
        (fun o => (o.result.skipped.length, o.runRow.total_commodities))
      = .ok (1, 1) ∧ (1 : ℕ) ≠ 1 - 1 := by
  constructor
  · simp [updateDailyPrices, dailyOutcome, processRange, skipOf, Except.map,
      ItemOutcome.isUpdated, failOf, currentOf, historyOf]
  · decide

/-- Concrete run used by witnesses: one complete active range (commodity
1) and one incomplete active range (commodity 2). -/
def mixedRows : List (RangeRow × ItemEnv) :=
  [(⟨1, some "GLD", none, none, some 10, some 20, true⟩, ⟨1/2, none, none, none⟩),
   (⟨2, none, none, none, none, none, true⟩, ⟨0, none, none, none⟩)]

/-- C2 witness: the counting theorem applied to a concrete run with one
complete and one incomplete active range. -/
theorem updateDailyPrices_counts_witness :
    updateDailyPrices "cron" (27/500) mixedRows
      = .ok (dailyOutcome "cron" (27/500) mixedRows) ∧
    (dailyOutcome "cron" (27/500) mixedRows).result.skipped.length
      = ((mixedRows.filter fun p => p.1.commodityActive).filter
          fun p => p.1.incomplete).length ∧
    (dailyOutcome "cron" (27/500) mixedRows).result.updated
      + (dailyOutcome "cron" (27/500) mixedRows).result.failures.length
      + (dailyOutcome "cron" (27/500) mixedRows).result.skipped.length
      = (mixedRows.filter fun p => p.1.commodityActive).length ∧
    (dailyOutcome "cron" (27/500) mixedRows).runRow.total_commodities
      = (mixedRows.filter fun p => p.1.commodityActive).length :=
  updateDailyPrices_counts "cron" (27/500) mixedRows (by norm_num)

/-- C10: the single run row written by a daily cycle has status success
exactly when at least one commodity was updated, and status no_updates
exactly when none was (including cycles where every item was skipped or
failed; there is no distinct failure status). -/
theorem updateDailyPrices_status (ts : String) (rate : ℚ)
    (rows : List (RangeRow × ItemEnv)) (hrate : rate ≠ 0) :
    updateDailyPrices ts rate rows = .ok (dailyOutcome ts rate rows) ∧
    ((dailyOutcome ts rate rows).runRow.status = "success"
      ↔ 0 < (dailyOutcome ts rate rows).result.updated) ∧
    ((dailyOutcome ts rate rows).runRow.status = "no_updates"
      ↔ (dailyOutcome ts rate rows).result.updated = 0) := by
  refine ⟨by simp [updateDailyPrices, hrate], ?_, ?_⟩ <;>
    · simp only [dailyOutcome]
      by_cases h : 0 < (((rows.filter fun p => p.1.commodityActive).map
          fun p => processRange rate (roundTo 6 (1 / rate)) p.1 p.2).filter
            ItemOutcome.isUpdated).length <;>
        simp [h, Nat.pos_iff_ne_zero]

/-- C10 witness: a run whose only active range is skipped writes the
no_updates status. -/
theorem updateDailyPrices_status_witness :
    (dailyOutcome "cron" (27/500)
        [(⟨1, none, none, none, none, none, true⟩, ⟨0, none, none, none⟩)]).runRow.status
      = "no_updates" :=
  (updateDailyPrices_status "cron" (27/500)
      [(⟨1, none, none, none, none, none, true⟩, ⟨0, none, none, none⟩)]
      (by norm_num)).2.2.mpr rfl

/-- A complete-bounds item whose current-price upsert errors, or whose
history insert errors after a clean upsert, produces exactly the failure
record built by the per-item catch. -/
lemma failOf_processRange (a b : ℚ) (r : RangeRow) (e : ItemEnv) (m : String)
    (hinc : r.incomplete = false)
    (herr : e.currentUpsertError = some m ∨
      (e.currentUpsertError = none ∧ e.historyInsertError = some m)) :
    failOf (processRange a b r e) = some ⟨r.commodityId, r.symbol, m⟩ := by
  rcases r with ⟨id, sym, mz, xz, mu, xu, act⟩
  rcases herr with h | ⟨h1, h2⟩ <;>
    cases mu <;> cases xu <;> cases mz <;> cases xz <;>
    simp_all [processRange, RangeRow.incomplete, failOf]

/-- A complete-bounds item whose two store writes both succeed ends in
the updated state. -/
lemma processRange_ok (a b : ℚ) (r : RangeRow) (e : ItemEnv)
    (hinc : r.incomplete = false) (h1 : e.currentUpsertError = none)
    (h2 : e.historyInsertError = none) :
    ∃ cp ph, processRange a b r e = ItemOutcome.updated cp ph := by
  rcases r with ⟨id, sym, mz, xz, mu, xu, act⟩
  cases mu <;> cases xu <;> cases mz <;> cases xz <;>
    simp_all [processRange, RangeRow.incomplete]

/-- C4: per-item failures are isolated.  In every non-aborting run, the
cycle still returns success; each active complete-bounds item with an
injected store-write error contributes exactly its failure record (with
commodity id, symbol and message) to the failures list; every other
active complete-bounds item still lands its rows in both
`current_prices` and `price_history`; and the run row is still produced
for this cycle. -/
theorem updateDailyPrices_isolates (ts : String) (rate : ℚ)
    (rows : List (RangeRow × ItemEnv)) (hrate : rate ≠ 0) :
    updateDailyPrices ts rate rows = .ok (dailyOutcome ts rate rows) ∧
    (dailyOutcome ts rate rows).result.success = true ∧
    (∀ r e m, (r, e) ∈ rows → r.commodityActive = true → r.incomplete = false →
      (e.currentUpsertError = some m ∨
        (e.currentUpsertError = none ∧ e.historyInsertError = some m)) →
      (⟨r.commodityId, r.symbol, m⟩ : FailureRec)
        ∈ (dailyOutcome ts rate rows).result.failures) ∧
    (∀ r e, (r, e) ∈ rows → r.commodityActive = true → r.incomplete = false →
      e.currentUpsertError = none → e.historyInsertError = none →
      ∃ cp ph, processRange rate (roundTo 6 (1 / rate)) r e = ItemOutcome.updated cp ph ∧
        cp ∈ (dailyOutcome ts rate rows).currentWrites ∧
        ph ∈ (dailyOutcome ts rate rows).historyWrites) ∧
    (dailyOutcome ts rate rows).runRow.trigger_source = ts := by
  refine ⟨by simp [updateDailyPrices, hrate], by simp [dailyOutcome], ?_, ?_,
    by simp [dailyOutcome]⟩
  · intro r e m hmem hact hinc herr
    simp only [dailyOutcome]
    exact List.mem_filterMap.mpr
      ⟨processRange rate (roundTo 6 (1 / rate)) r e,
        List.mem_map_of_mem _ (List.mem_filter.mpr ⟨hmem, hact⟩),
        failOf_processRange rate (roundTo 6 (1 / rate)) r e m hinc herr⟩
  · intro r e hmem hact hinc h1 h2
    obtain ⟨cp, ph, heq⟩ := processRange_ok rate (roundTo 6 (1 / rate)) r e hinc h1 h2
    refine ⟨cp, ph, heq, ?_, ?_⟩
    · simp only [dailyOutcome]
      exact List.mem_filterMap.mpr
        ⟨processRange rate (roundTo 6 (1 / rate)) r e,
          List.mem_map_of_mem _ (List.mem_filter.mpr ⟨hmem, hact⟩),
          by rw [heq]; rfl⟩
    · simp only [dailyOutcome]
      exact List.mem_filterMap.mpr
        ⟨processRange rate (roundTo 6 (1 / rate)) r e,
          List.mem_map_of_mem _ (List.mem_filter.mpr ⟨hmem, hact⟩),
          by rw [heq]; rfl⟩

/-- Concrete run used by the C4 witness: commodity 1 updates cleanly,
the upsert for commodity 2 fails with a store error. -/
def failingRows : List (RangeRow × ItemEnv) :=
  [(⟨1, some "GLD", none, none, some 10, some 20, true⟩, ⟨1/2, none, none, none⟩),
   (⟨2, some "OIL", none, none, some 5, some 9, true⟩, ⟨1/2, none, some "store down", none⟩)]

/-- C4 witness: in the concrete run, the failing commodity appears in the
failures list with its id, symbol and message. -/
theorem updateDailyPrices_isolates_witness :
    (⟨2, some "OIL", "store down"⟩ : FailureRec)
      ∈ (dailyOutcome "cron" (27/500) failingRows).result.failures :=
  (updateDailyPrices_isolates "cron" (27/500) failingRows (by norm_num)).2.2.1
    ⟨2, some "OIL", none, none, some 5, some 9, true⟩
    ⟨1/2, none, some "store down", none⟩ "store down"
    (List.mem_cons_of_mem _ (List.mem_cons_self _ _)) rfl rfl (Or.inl rfl)

end Aboi
